import Mathlib

set_option maxHeartbeats 1000000

/-! Shallow embedding of the slicknode-apollo-link credential lifecycle
(`src/SlicknodeLink.ts`, `src/storage/MemoryStorage.ts`).

JavaScript semantics that this code relies on are modelled explicitly:
numbers carry a NaN value, strings and numbers have JS truthiness
(`""`, `0`, `NaN`, `null`, `undefined` are falsy), `String(x)` produces the
canonical decimal rendering (or `"null"` / `"NaN"`), and `parseInt(s, 10)`
skips leading whitespace, reads an optional sign and the longest digit
prefix, and yields NaN when no digit is found.  Timestamps and lifetimes in
this code are integral, so JS numbers are modelled as `Int`-or-NaN.
`Date.now()` is passed in explicitly as the `now` argument of each
operation; all reads inside one synchronous operation observe the same
`now`. -/

/-- JS number value: an integer or NaN (fractional values never arise in
the modelled code paths). -/
inductive JsNumber where
  | num (n : Int)
  | nan
deriving DecidableEq, Repr

/-- JS multiplication on numbers; NaN propagates. -/
def JsNumber.mul : JsNumber → JsNumber → JsNumber
  | .num a, .num b => .num (a * b)
  | _, _ => .nan

/-- JS addition on numbers; NaN propagates. -/
def JsNumber.add : JsNumber → JsNumber → JsNumber
  | .num a, .num b => .num (a + b)
  | _, _ => .nan

/-- JS truthiness of a number: `0` and `NaN` are falsy. -/
def JsNumber.truthy : JsNumber → Bool
  | .num n => n ≠ 0
  | .nan => false

/-- Untyped JS value, for untrusted response payloads. -/
inductive JsValue where
  | nullV
  | undefinedV
  | boolV (b : Bool)
  | numV (n : JsNumber)
  | strV (s : String)
  | objV (fields : List (String × JsValue))
deriving Repr

/-- JS truthiness of an arbitrary value. -/
def jsTruthy : JsValue → Bool
  | .nullV => false
  | .undefinedV => false
  | .boolV b => b
  | .numV n => n.truthy
  | .strV s => s ≠ ""
  | .objV _ => true

/-- `typeof v === 'string'`. -/
def jsTypeofIsString : JsValue → Bool
  | .strV _ => true
  | _ => false

/-- `typeof v === 'number'` (NaN is a number in JS). -/
def jsTypeofIsNumber : JsValue → Bool
  | .numV _ => true
  | _ => false

/-- `typeof v === 'object'` (true for objects and for `null`). -/
def jsTypeofIsObject : JsValue → Bool
  | .objV _ => true
  | .nullV => true
  | _ => false

/-- Property access `v[key]`: `undefined` when absent or not an object. -/
def jsGetField (v : JsValue) (key : String) : JsValue :=
  match v with
  | .objV fields =>
    match fields.find? (fun p => p.1 == key) with
    | some p => p.2
    | none => .undefinedV
  | _ => .undefinedV

/-- `v.hasOwnProperty(key)` (false on boxed primitives). -/
def jsHasOwnProperty (v : JsValue) (key : String) : Bool :=
  match v with
  | .objV fields => (fields.find? (fun p => p.1 == key)).isSome
  | _ => false

/-- JS `x || null` / `Boolean(x)` normalisation for `string | null`
values: the empty string is falsy and collapses to `none`. -/
def truthyStr : Option String → Option String
  | some s => if s = "" then none else some s
  | none => none

/-- JS `Boolean(x)` for a `string | null` value. -/
def jsTruthyStr (x : Option String) : Bool :=
  (truthyStr x).isSome

/-- JS `a || b` on `string | null` operands. -/
def jsOrStr (a b : Option String) : Option String :=
  match truthyStr a with
  | some t => some t
  | none => b

/-- JS `(expires || 0)` on a `number | null` value: `null`, `0` and `NaN`
all collapse to `0`. -/
def jsOrZero : Option JsNumber → Int
  | some (.num n) => n
  | some .nan => 0
  | none => 0

/-- JS truthiness of a `number | null` value. -/
def jsTruthyNum : Option JsNumber → Bool
  | some n => n.truthy
  | none => false

/-- The character `'0' + k` for a digit value `k`. -/
def digitChar (k : Nat) : Char := Char.ofNat (48 + k)

/-- Decimal digit list (most significant first) of a natural number,
fuel-structured so the kernel can evaluate it.  `fuel > n` suffices. -/
def natToDigitsAux (fuel n : Nat) : List Char :=
  match fuel with
  | 0 => []
  | fuel' + 1 =>
    if n < 10 then [digitChar n]
    else natToDigitsAux fuel' (n / 10) ++ [digitChar (n % 10)]

/-- Canonical decimal digit list of a natural number. -/
def natToDigits (n : Nat) : List Char := natToDigitsAux (n + 1) n

/-- JS `String(n)` for a nonnegative integer. -/
def jsNatRepr (n : Nat) : String := String.mk (natToDigits n)

/-- JS `String(i)` for an integer. -/
def jsIntRepr (i : Int) : String :=
  if i < 0 then "-" ++ jsNatRepr i.natAbs else jsNatRepr i.natAbs

/-- JS `String(x)` for a number. -/
def JsNumber.render : JsNumber → String
  | .num i => jsIntRepr i
  | .nan => "NaN"

/-- JS `String(x)` for a `number | null` value (`String(null) = "null"`). -/
def jsRenderNullableNumber : Option JsNumber → String
  | some x => x.render
  | none => "null"

/-- Numeric value of a digit character. -/
def digitVal (c : Char) : Nat := c.toNat - 48

/-- Value of a most-significant-first digit list. -/
def digitsVal (cs : List Char) : Nat :=
  cs.foldl (fun acc c => acc * 10 + digitVal c) 0

/-- Whitespace skipped by `parseInt`. -/
def jsIsSpace (c : Char) : Bool :=
  c = ' ' || c = '\t' || c = '\n' || c = '\r'

/-- Longest digit prefix rule of `parseInt`: NaN when no leading digit. -/
def parseLeadingDigits (cs : List Char) (neg : Bool) : JsNumber :=
  let ds := cs.takeWhile Char.isDigit
  if ds.isEmpty then .nan
  else .num (if neg then -(digitsVal ds : Int) else (digitsVal ds : Int))

/-- `parseInt(s, 10)`. -/
def parseInt10 (s : String) : JsNumber :=
  match s.data.dropWhile jsIsSpace with
  | [] => .nan
  | c :: cs =>
    if c = '-' then parseLeadingDigits cs true
    else if c = '+' then parseLeadingDigits cs false
    else parseLeadingDigits (c :: cs) false

theorem digitChar_isDigit {k : Nat} (hk : k < 10) : (digitChar k).isDigit = true := by
  interval_cases k <;> decide

theorem digitVal_digitChar {k : Nat} (hk : k < 10) : digitVal (digitChar k) = k := by
  interval_cases k <;> decide

theorem isDigit_not_space {c : Char} (h : c.isDigit = true) : jsIsSpace c = false := by
  have h1 : c ≠ ' ' := by intro hc; subst hc; exact absurd h (by decide)
  have h2 : c ≠ '\t' := by intro hc; subst hc; exact absurd h (by decide)
  have h3 : c ≠ '\n' := by intro hc; subst hc; exact absurd h (by decide)
  have h4 : c ≠ '\r' := by intro hc; subst hc; exact absurd h (by decide)
  simp [jsIsSpace, h1, h2, h3, h4]

theorem isDigit_ne_minus {c : Char} (h : c.isDigit = true) : c ≠ '-' := by
  intro hc; subst hc; exact absurd h (by decide)

theorem isDigit_ne_plus {c : Char} (h : c.isDigit = true) : c ≠ '+' := by
  intro hc; subst hc; exact absurd h (by decide)

theorem natToDigitsAux_ne_nil {fuel n : Nat} (h : n < fuel) :
    natToDigitsAux fuel n ≠ [] := by
  cases fuel with
  | zero => omega
  | succ fuel' =>
    unfold natToDigitsAux
    split
    · simp
    · simp

theorem natToDigitsAux_all_digits {fuel : Nat} :
    ∀ {n : Nat}, n < fuel → ∀ c ∈ natToDigitsAux fuel n, c.isDigit = true := by
  induction fuel with
  | zero => intro n h; omega
  | succ fuel' ih =>
    intro n _ c hc
    unfold natToDigitsAux at hc
    split at hc
    · rcases List.mem_singleton.mp hc with rfl
      exact digitChar_isDigit (by omega)
    · rcases List.mem_append.mp hc with h1 | h2
      · have hdiv : n / 10 < n := Nat.div_lt_self (by omega) (by omega)
        exact ih (by omega) c h1
      · rcases List.mem_singleton.mp h2 with rfl
        exact digitChar_isDigit (Nat.mod_lt n (by omega))

theorem digitsVal_append_singleton (l : List Char) (c : Char) :
    digitsVal (l ++ [c]) = digitsVal l * 10 + digitVal c := by
  simp [digitsVal, List.foldl_append]

theorem digitsVal_natToDigitsAux {fuel : Nat} :
    ∀ {n : Nat}, n < fuel → digitsVal (natToDigitsAux fuel n) = n := by
  induction fuel with
  | zero => intro n h; omega
  | succ fuel' ih =>
    intro n hn
    unfold natToDigitsAux
    split
    · next h10 =>
      simp [digitsVal, digitVal_digitChar h10]
    · next h10 =>
      have hdiv : n / 10 < n := Nat.div_lt_self (by omega) (by omega)
      rw [digitsVal_append_singleton, ih (by omega),
        digitVal_digitChar (Nat.mod_lt n (by omega))]
      omega

theorem takeWhile_eq_self_of_all {p : Char → Bool} :
    ∀ {l : List Char}, (∀ c ∈ l, p c = true) → l.takeWhile p = l := by
  intro l
  induction l with
  | nil => intro _; rfl
  | cons c cs ih =>
    intro h
    have hc : p c = true := h c (List.mem_cons_self c cs)
    simp only [List.takeWhile_cons, hc, if_true]
    rw [ih (fun x hx => h x (List.mem_cons_of_mem c hx))]

theorem parseInt10_jsNatRepr (n : Nat) : parseInt10 (jsNatRepr n) = .num n := by
  have hlt : n < n + 1 := Nat.lt_succ_self n
  unfold parseInt10 jsNatRepr natToDigits
  cases hl : natToDigitsAux (n + 1) n with
  | nil => exact absurd hl (natToDigitsAux_ne_nil hlt)
  | cons c cs =>
    have hall' : ∀ x ∈ c :: cs, Char.isDigit x = true := by
      rw [← hl]; exact natToDigitsAux_all_digits hlt
    have hc : c.isDigit = true := hall' c (List.mem_cons_self c cs)
    have hdrop : List.dropWhile jsIsSpace (String.mk (c :: cs)).data = c :: cs := by
      show List.dropWhile jsIsSpace (c :: cs) = c :: cs
      rw [List.dropWhile_cons_of_neg]
      simp [isDigit_not_space hc]
    rw [hdrop]
    show (if c = '-' then parseLeadingDigits cs true
          else if c = '+' then parseLeadingDigits cs false
          else parseLeadingDigits (c :: cs) false) = JsNumber.num n
    rw [if_neg (isDigit_ne_minus hc), if_neg (isDigit_ne_plus hc)]
    have hval : digitsVal (c :: cs) = n := by
      rw [← hl]; exact digitsVal_natToDigitsAux hlt
    simp [parseLeadingDigits, takeWhile_eq_self_of_all hall', hval]

theorem parseInt10_jsIntRepr_of_nonneg {i : Int} (h : 0 ≤ i) :
    parseInt10 (jsIntRepr i) = .num i := by
  unfold jsIntRepr
  rw [if_neg (by omega)]
  rw [parseInt10_jsNatRepr]
  congr 1
  omega

theorem jsNatRepr_ne_empty (n : Nat) : jsNatRepr n ≠ "" := by
  unfold jsNatRepr natToDigits
  intro h
  have := congrArg String.data h
  simp only [String.data] at this
  exact natToDigitsAux_ne_nil (Nat.lt_succ_self n) this

theorem jsIntRepr_ne_empty (i : Int) : jsIntRepr i ≠ "" := by
  unfold jsIntRepr
  split
  · intro h
    have h2 : ('-' :: (jsNatRepr i.natAbs).data) = ([] : List Char) :=
      congrArg String.data h
    cases h2
  · exact jsNatRepr_ne_empty _

/-- In-memory key/value storage (`src/storage/MemoryStorage.ts`), modelled
as an association list without duplicate keys. -/
structure MemoryStorage where
  values : List (String × String)
deriving DecidableEq, Repr

/-- `getItem`: the stored value, `null` when the key is absent. -/
def MemoryStorage.getItem (s : MemoryStorage) (key : String) : Option String :=
  (s.values.find? (fun p => p.1 == key)).map (fun p => p.2)

/-- `setItem`: store `value` under `key`, replacing any previous value. -/
def MemoryStorage.setItem (s : MemoryStorage) (key value : String) : MemoryStorage :=
  ⟨(key, value) :: s.values.filter (fun p => !(p.1 == key))⟩

/-- `removeItem`: delete the entry for `key`. -/
def MemoryStorage.removeItem (s : MemoryStorage) (key : String) : MemoryStorage :=
  ⟨s.values.filter (fun p => !(p.1 == key))⟩

/-- `clear`: delete everything. -/
def MemoryStorage.clear (_ : MemoryStorage) : MemoryStorage := ⟨[]⟩

theorem find?_filter_ne {l : List (String × String)} {k k' : String} (h : k' ≠ k) :
    (l.filter (fun p => !(p.1 == k))).find? (fun p => p.1 == k')
      = l.find? (fun p => p.1 == k') := by
  induction l with
  | nil => rfl
  | cons p ps ih =>
    by_cases hpk : p.1 = k
    · have hk' : ¬ (p.1 = k') := by rw [hpk]; exact fun hc => h hc.symm
      simp [List.filter_cons, List.find?_cons, hpk, hk', Ne.symm h, ih]
    · by_cases hpk' : p.1 = k'
      · simp [List.filter_cons, List.find?_cons, hpk, hpk', h]
      · simp [List.filter_cons, List.find?_cons, hpk, hpk', h, ih]

theorem find?_filter_self (l : List (String × String)) (k : String) :
    (l.filter (fun p => !(p.1 == k))).find? (fun p => p.1 == k) = none := by
  rw [List.find?_eq_none]
  intro p hp
  have h2 := (List.mem_filter.mp hp).2
  simpa using h2

theorem MemoryStorage.getItem_setItem_self (s : MemoryStorage) (k v : String) :
    (s.setItem k v).getItem k = some v := by
  have h : List.find? (fun p : String × String => p.1 == k)
      ((k, v) :: s.values.filter (fun p => !(p.1 == k))) = some (k, v) :=
    List.find?_cons_of_pos _ (by simp)
  unfold getItem setItem
  dsimp only
  rw [h]
  rfl

theorem MemoryStorage.getItem_setItem_ne (s : MemoryStorage) {k k' : String}
    (v : String) (h : k' ≠ k) : (s.setItem k v).getItem k' = s.getItem k' := by
  have h0 : ¬ ((fun p : String × String => p.1 == k') (k, v) = true) := by
    simpa using fun hc => h hc.symm
  have h1 : List.find? (fun p : String × String => p.1 == k')
      ((k, v) :: s.values.filter (fun p => !(p.1 == k)))
      = List.find? (fun p : String × String => p.1 == k')
          (s.values.filter (fun p => !(p.1 == k))) :=
    List.find?_cons_of_neg _ h0
  unfold getItem setItem
  dsimp only
  rw [h1, find?_filter_ne h]

theorem MemoryStorage.getItem_removeItem_self (s : MemoryStorage) (k : String) :
    (s.removeItem k).getItem k = none := by
  unfold getItem removeItem
  dsimp only
  rw [find?_filter_self]
  rfl

theorem MemoryStorage.getItem_removeItem_ne (s : MemoryStorage) {k k' : String}
    (h : k' ≠ k) : (s.removeItem k).getItem k' = s.getItem k' := by
  unfold getItem removeItem
  dsimp only
  rw [find?_filter_ne h]

/-- Construction options (`ISlicknodeLinkOptions`); `storage` is passed
separately and `debug` only controls logging, which is not modelled.
`nspace?` is the `namespace` option (a keyword in Lean). -/
structure ISlicknodeLinkOptions where
  nspace? : Option String
  accessToken? : Option String
deriving DecidableEq, Repr

/-- Mutable state of a `SlicknodeLink` instance: options, resolved
namespace, storage, and the pending refresh handle (`loadHeadersPromise`),
identified by a promise id. -/
structure SlicknodeLink where
  options : ISlicknodeLinkOptions
  nspace : String
  storage : MemoryStorage
  loadHeadersPromise : Option Nat
deriving DecidableEq, Repr

def REFRESH_TOKEN_KEY : String := ":auth:refreshToken"
def REFRESH_TOKEN_EXPIRES_KEY : String := ":auth:refreshTokenExpires"
def ACCESS_TOKEN_KEY : String := ":auth:accessToken"
def ACCESS_TOKEN_EXPIRES_KEY : String := ":auth:accessTokenExpires"
def DEFAULT_NAMESPACE : String := "slicknode"

/-- The constructor: `namespace = options.namespace || DEFAULT_NAMESPACE`
(JS `||`, so an empty namespace falls back to the default) and the
`loadHeadersPromise` field starts out unassigned. -/
def SlicknodeLink.construct (options : ISlicknodeLinkOptions)
    (storage : MemoryStorage) : SlicknodeLink :=
  { options := options,
    nspace := (truthyStr options.nspace?).getD DEFAULT_NAMESPACE,
    storage := storage,
    loadHeadersPromise := none }

def SlicknodeLink.accessTokenKey (link : SlicknodeLink) : String :=
  link.nspace ++ ACCESS_TOKEN_KEY

def SlicknodeLink.accessTokenExpiresKey (link : SlicknodeLink) : String :=
  link.nspace ++ ACCESS_TOKEN_EXPIRES_KEY

def SlicknodeLink.refreshTokenKey (link : SlicknodeLink) : String :=
  link.nspace ++ REFRESH_TOKEN_KEY

def SlicknodeLink.refreshTokenExpiresKey (link : SlicknodeLink) : String :=
  link.nspace ++ REFRESH_TOKEN_EXPIRES_KEY

theorem append_left_cancel_str {s a b : String} (h : s ++ a = s ++ b) : a = b := by
  have hd := congrArg String.data h
  rw [String.data_append, String.data_append] at hd
  exact String.ext (List.append_cancel_left hd)

theorem ns_key_ne (s : String) {a b : String} (h : a ≠ b) : s ++ a ≠ s ++ b :=
  fun hc => h (append_left_cancel_str hc)

/-- `setRefreshToken(token)` (SlicknodeLink.ts lines 203-206). -/
def SlicknodeLink.setRefreshToken (link : SlicknodeLink) (token : String) : SlicknodeLink :=
  { link with storage := link.storage.setItem link.refreshTokenKey token }

/-- `getRefreshTokenExpires()` (lines 236-240): `expires ? parseInt(expires, 10) : null`. -/
def SlicknodeLink.getRefreshTokenExpires (link : SlicknodeLink) : Option JsNumber :=
  match truthyStr (link.storage.getItem link.refreshTokenExpiresKey) with
  | some s => some (parseInt10 s)
  | none => none

/-- `getRefreshToken()` (lines 212-218): `null` when
`(getRefreshTokenExpires() || 0) < Date.now()`, else the raw stored item
(note: no `|| null` on the stored value, unlike `getAccessToken`). -/
def SlicknodeLink.getRefreshToken (link : SlicknodeLink) (now : Int) : Option String :=
  if jsOrZero link.getRefreshTokenExpires < now then none
  else link.storage.getItem link.refreshTokenKey

/-- `setAccessTokenExpires(timestamp)` (lines 223-230): a falsy timestamp
(`null`, `0`, `NaN`) removes the entry, a truthy one stores `String(timestamp)`. -/
def SlicknodeLink.setAccessTokenExpires (link : SlicknodeLink)
    (timestamp : Option JsNumber) : SlicknodeLink :=
  if jsTruthyNum timestamp then
    { link with storage :=
        link.storage.setItem link.accessTokenExpiresKey (jsRenderNullableNumber timestamp) }
  else
    { link with storage := link.storage.removeItem link.accessTokenExpiresKey }

/-- `setRefreshTokenExpires(timestamp)` (lines 245-250): always stores
`String(timestamp)` — storing the string `"null"` when given `null`. -/
def SlicknodeLink.setRefreshTokenExpires (link : SlicknodeLink)
    (timestamp : Option JsNumber) : SlicknodeLink :=
  { link with storage :=
      link.storage.setItem link.refreshTokenExpiresKey (jsRenderNullableNumber timestamp) }

/-- `getAccessTokenExpires()` (lines 256-260). -/
def SlicknodeLink.getAccessTokenExpires (link : SlicknodeLink) : Option JsNumber :=
  match truthyStr (link.storage.getItem link.accessTokenExpiresKey) with
  | some s => some (parseInt10 s)
  | none => none

/-- `setAccessToken(token)` (lines 266-269). -/
def SlicknodeLink.setAccessToken (link : SlicknodeLink) (token : String) : SlicknodeLink :=
  { link with storage := link.storage.setItem link.accessTokenKey token }

/-- `getAccessToken()` (lines 275-282): `null` when
`(getAccessTokenExpires() || 0) < Date.now()`, else `getItem(key) || null`. -/
def SlicknodeLink.getAccessToken (link : SlicknodeLink) (now : Int) : Option String :=
  if jsOrZero link.getAccessTokenExpires < now then none
  else truthyStr (link.storage.getItem link.accessTokenKey)

/-- `hasAccessToken()` (lines 175-177): `Boolean(this.getAccessToken())`. -/
def SlicknodeLink.hasAccessToken (link : SlicknodeLink) (now : Int) : Bool :=
  jsTruthyStr (link.getAccessToken now)

/-- `hasRefreshToken()` (lines 184-186): `Boolean(this.getRefreshToken())`. -/
def SlicknodeLink.hasRefreshToken (link : SlicknodeLink) (now : Int) : Bool :=
  jsTruthyStr (link.getRefreshToken now)

/-- The `IAuthTokenSet` payload (types.ts); lifetimes are JS numbers. -/
structure IAuthTokenSet where
  accessToken : String
  accessTokenLifetime : JsNumber
  refreshToken : String
  refreshTokenLifetime : JsNumber
deriving DecidableEq, Repr

/-- `setAuthTokenSet(token)` (lines 192-197): four sequential writes, both
expiry timestamps computed as `lifetime * 1000 + Date.now()`. -/
def SlicknodeLink.setAuthTokenSet (link : SlicknodeLink) (token : IAuthTokenSet)
    (now : Int) : SlicknodeLink :=
  (((link.setAccessToken token.accessToken).setAccessTokenExpires
      (some ((token.accessTokenLifetime.mul (.num 1000)).add (.num now)))).setRefreshToken
      token.refreshToken).setRefreshTokenExpires
      (some ((token.refreshTokenLifetime.mul (.num 1000)).add (.num now)))

/-- `logout()` (lines 287-292): remove all four credential keys. -/
def SlicknodeLink.logout (link : SlicknodeLink) : SlicknodeLink :=
  let s1 := link.storage.removeItem link.refreshTokenKey
  let s2 := s1.removeItem link.refreshTokenExpiresKey
  let s3 := s2.removeItem link.accessTokenKey
  let s4 := s3.removeItem link.accessTokenExpiresKey
  { link with storage := s4 }

/-- The duck-typed shape check of `validateAndSetAuthTokenSet` (lines 360-367). -/
def isValidAuthTokenSet (tokenSet : JsValue) : Bool :=
  jsTruthy tokenSet && jsTypeofIsObject tokenSet &&
  jsTypeofIsString (jsGetField tokenSet "accessToken") &&
  jsTypeofIsNumber (jsGetField tokenSet "accessTokenLifetime") &&
  jsTypeofIsString (jsGetField tokenSet "refreshToken") &&
  jsTypeofIsNumber (jsGetField tokenSet "refreshTokenLifetime")

/-- Reads a validated payload as an `IAuthTokenSet` (member accesses of the
TS code after the `typeof` checks; the fallbacks are unreachable on
validated input). -/
def jsValueToAuthTokenSet (v : JsValue) : IAuthTokenSet :=
  { accessToken :=
      match jsGetField v "accessToken" with
      | .strV s => s
      | _ => "",
    accessTokenLifetime :=
      match jsGetField v "accessTokenLifetime" with
      | .numV n => n
      | _ => .nan,
    refreshToken :=
      match jsGetField v "refreshToken" with
      | .strV s => s
      | _ => "",
    refreshTokenLifetime :=
      match jsGetField v "refreshTokenLifetime" with
      | .numV n => n
      | _ => .nan }

/-- `validateAndSetAuthTokenSet(tokenSet)` (lines 359-376): persist the set
when it validates, otherwise leave every stored field untouched; the
returned flag reports which happened. -/
def SlicknodeLink.validateAndSetAuthTokenSet (link : SlicknodeLink)
    (tokenSet : JsValue) (now : Int) : Bool × SlicknodeLink :=
  if isValidAuthTokenSet tokenSet then
    (true, link.setAuthTokenSet (jsValueToAuthTokenSet tokenSet) now)
  else
    (false, link)

/-- Header map produced by `getAuthHeaders`: `{}` or a single
`Authorization` entry. -/
inductive Headers where
  | empty
  | authorization (value : String)
deriving DecidableEq, Repr

/-- Settlement of the header promise. The handlers in the source only ever
call `resolve`, never `reject`. -/
inductive PromiseSettle where
  | resolved (headers : Headers)
  | rejected
deriving DecidableEq, Repr

/-- What one synchronous execution of `getAuthHeaders` hands its caller:
either an immediately resolved header map (`Promise.resolve`, no handle is
stored) or the shared pending handle `loadHeadersPromise`. -/
inductive HeaderResult where
  | immediate (headers : Headers)
  | pending (promiseId : Nat)
deriving DecidableEq, Repr

/-- Synchronous effects of one `getAuthHeaders(forward)` call:
the updated link, the value returned to the caller, the refresh token
forwarded in a refresh mutation (if one was issued via `forward`), and
whether the no-refresh-token `setTimeout` branch was scheduled. -/
structure AuthHeadersCall where
  link' : SlicknodeLink
  result : HeaderResult
  forwardedRefresh : Option String
  scheduledTimeout : Bool
deriving DecidableEq, Repr

/-- `getAuthHeaders(forward)` (lines 299-357), synchronous part.  The
refresh response is asynchronous: it is delivered later through
`refreshNextHandler` / `refreshErrorHandler`, and the `setTimeout` branch
through `timeoutHandler`.  `freshId` identifies the promise created by this
call, if any. -/
def SlicknodeLink.getAuthHeaders (link : SlicknodeLink) (now : Int)
    (freshId : Nat) : AuthHeadersCall :=
  match link.loadHeadersPromise with
  | some p =>
    -- `loadHeadersPromise` present: join the in-flight refresh.
    ⟨link, .pending p, none, false⟩
  | none =>
    let accessToken := jsOrStr link.options.accessToken? (link.getAccessToken now)
    match truthyStr accessToken with
    | some t =>
      -- valid token: `Promise.resolve({Authorization: Bearer ...})`.
      ⟨link, .immediate (.authorization ("Bearer " ++ t)), none, false⟩
    | none =>
      let refreshToken := link.getRefreshToken now
      match truthyStr refreshToken with
      | some rt =>
        -- `forward(refreshOperation)` with variables `{token: refreshToken}`.
        ⟨{ link with loadHeadersPromise := some freshId }, .pending freshId, some rt, false⟩
      | none =>
        -- `setTimeout(..., 0)`: resolve `{}` on the next tick.
        ⟨{ link with loadHeadersPromise := some freshId }, .pending freshId, none, true⟩

/-- A GraphQL response as observed by the subscription handlers:
`data` is `undefined` or a JS value. -/
structure FetchResult where
  data : Option JsValue
deriving Repr

/-- The truthiness-guarded read `result.data && result.data.refreshAuthToken`
(lines 332): `some payload` exactly when both are truthy. -/
def refreshAuthTokenPayload (result : FetchResult) : Option JsValue :=
  match result.data with
  | some d =>
    if jsTruthy d then
      if jsTruthy (jsGetField d "refreshAuthToken") then some (jsGetField d "refreshAuthToken")
      else none
    else none
  | none => none

/-- The `error` subscription handler of the refresh call (lines 324-329):
logout, clear the pending handle, resolve `{}`. -/
def SlicknodeLink.refreshErrorHandler (link : SlicknodeLink) :
    SlicknodeLink × PromiseSettle :=
  let link1 := { link.logout with loadHeadersPromise := none }
  (link1, .resolved .empty)

/-- The `next` subscription handler of the refresh call (lines 330-343):
clear the pending handle, validate and persist (or logout), then resolve
with a bearer header re-read from storage, or `{}`. -/
def SlicknodeLink.refreshNextHandler (link : SlicknodeLink) (result : FetchResult)
    (now : Int) : SlicknodeLink × PromiseSettle :=
  let link0 := { link with loadHeadersPromise := none }
  let link1 :=
    match refreshAuthTokenPayload result with
    | some payload =>
      let r := link0.validateAndSetAuthTokenSet payload now
      if r.1 then r.2 else r.2.logout
    | none => link0.logout
  (link1,
    .resolved (if link1.hasAccessToken now then
      .authorization ("Bearer " ++ ((link1.getAccessToken now).getD ""))
    else .empty))

/-- The `setTimeout` callback of the no-refresh-token branch (lines 347-350):
clear the pending handle and resolve `{}` on the next tick. -/
def SlicknodeLink.timeoutHandler (link : SlicknodeLink) :
    SlicknodeLink × PromiseSettle :=
  ({ link with loadHeadersPromise := none }, .resolved .empty)

/-- Outcome of `n` `getAuthHeaders` calls issued in the same synchronous
turn (the refresh response, which is asynchronous, has not arrived yet). -/
structure RunCallsOut where
  link' : SlicknodeLink
  results : List HeaderResult
  forwardCount : Nat
deriving DecidableEq, Repr

/-- Run `n` sequential synchronous `getAuthHeaders` calls, threading the
link state and handing each call a fresh promise id. -/
def runCalls (link : SlicknodeLink) (now : Int) : Nat → Nat → RunCallsOut
  | 0, _ => ⟨link, [], 0⟩
  | n + 1, freshId =>
    let c := link.getAuthHeaders now freshId
    let rest := runCalls c.link' now n (freshId + 1)
    ⟨rest.link', c.result :: rest.results,
      (if c.forwardedRefresh.isSome then 1 else 0) + rest.forwardCount⟩

/-- A selection in a mutation's top-level selection set: a field (name,
optional alias, directive names) or a fragment spread / inline fragment
(unsupported: the source logs a warning and skips it). -/
inductive SelectionNode where
  | field (name : String) (alias? : Option String) (directives : List String)
  | fragment
deriving Repr

/-- An operation definition of the request document. -/
structure OperationDefinitionNode where
  name? : Option String
  operation : String
  selections : List SelectionNode
deriving Repr

/-- A definition of the request document (`kind === 'OperationDefinition'`
or anything else, e.g. a fragment definition). -/
inductive DefinitionNode where
  | operationDefinition (op : OperationDefinitionNode)
  | other
deriving Repr

/-- A result listener: runs against the link and the emitted value
(`resultListeners` closures in `request`, lines 100-141). -/
def Listener : Type := SlicknodeLink → FetchResult → Int → SlicknodeLink

/-- Finding the current operation (lines 89-97): first definition that is
an operation definition and is unnamed or has the requested name. -/
def findCurrentOperation (definitions : List DefinitionNode)
    (operationName : String) : Option OperationDefinitionNode :=
  match definitions.find? (fun d =>
    match d with
    | .operationDefinition op =>
      match op.name? with
      | some n => n == operationName
      | none => true
    | .other => false) with
  | some (.operationDefinition op) => some op
  | _ => none

/-- The `logoutUser` listener (lines 114-119): clear the credentials,
ignoring the payload. -/
def logoutUserListener : Listener :=
  fun link _ _ => link.logout

/-- The `@authenticate` listener (lines 126-138): when
`result.data` is truthy, has the field and it is `typeof 'object'`, run
`validateAndSetAuthTokenSet` on it; otherwise do nothing. -/
def authenticateListener (fieldName : String) : Listener :=
  fun link result now =>
    match result.data with
    | some d =>
      if jsTruthy d && jsHasOwnProperty d fieldName &&
          jsTypeofIsObject (jsGetField d fieldName) then
        (link.validateAndSetAuthTokenSet (jsGetField d fieldName) now).2
      else link
    | none => link

/-- The candidate token set the `@authenticate` listener would inspect
(`result.data[fieldName]`). -/
def deliveredTokenSet (result : FetchResult) (fieldName : String) : JsValue :=
  match result.data with
  | some d => jsGetField d fieldName
  | none => .undefinedV

/-- Listeners registered for one field (lines 113-140):
`logoutUser` fields get the logout listener, fields carrying an
`authenticate` directive get the token-set listener keyed by alias-or-name. -/
def listenersForField (name : String) (alias? : Option String)
    (directives : List String) : List Listener :=
  if name == "logoutUser" then [logoutUserListener]
  else if directives.contains "authenticate" then
    [authenticateListener (alias?.getD name)]
  else []

/-- Collect the result listeners of a request (lines 100-141): only for a
found operation definition of kind `mutation`; fragment selections are
skipped with a warning. -/
def collectResultListeners (definitions : List DefinitionNode)
    (operationName : String) : List Listener :=
  match findCurrentOperation definitions operationName with
  | some op =>
    if op.operation == "mutation" then
      (op.selections.filterMap (fun s =>
        match s with
        | .field name alias? directives => some (name, alias?, directives)
        | .fragment => none)).flatMap
        (fun f => listenersForField f.1 f.2.1 f.2.2)
    else []
  | none => []

/-- Events observable on the outer observer while relaying the forwarded
stream (lines 150-161). -/
inductive RelayEvent where
  | listenerInvoked (index : Nat)
  | nextRelayed
  | completeRelayed
  | errorRelayed
deriving DecidableEq, Repr

/-- `resultListeners.forEach((listener) => listener(value))`: invoke the
listeners left to right, producing the trace of invocations; `i` is the
index of the first listener. -/
def runResultListeners : List Listener → SlicknodeLink → FetchResult → Int → Nat →
    SlicknodeLink × List RelayEvent
  | [], link, _, _, _ => (link, [])
  | l :: rest, link, value, now, i =>
    let out := runResultListeners rest (l link value now) value now (i + 1)
    (out.1, .listenerInvoked i :: out.2)

/-- The `next` handler of the forwarded subscription (lines 157-160):
run every listener, then `observer.next(value)`. -/
def onNext (listeners : List Listener) (link : SlicknodeLink)
    (value : FetchResult) (now : Int) : SlicknodeLink × List RelayEvent :=
  let out := runResultListeners listeners link value now 0
  (out.1, out.2 ++ [.nextRelayed])

/-- The `complete` handler (lines 151-153): passes through, touching
neither listeners nor state. -/
def onComplete (link : SlicknodeLink) : SlicknodeLink × List RelayEvent :=
  (link, [.completeRelayed])

/-- The `error` handler (lines 154-156): passes through, touching neither
listeners nor state. -/
def onError (link : SlicknodeLink) : SlicknodeLink × List RelayEvent :=
  (link, [.errorRelayed])

theorem AT_ne_ATE (link : SlicknodeLink) :
    link.accessTokenKey ≠ link.accessTokenExpiresKey := by
  unfold SlicknodeLink.accessTokenKey SlicknodeLink.accessTokenExpiresKey
  exact ns_key_ne _ (by decide)

theorem AT_ne_RT (link : SlicknodeLink) :
    link.accessTokenKey ≠ link.refreshTokenKey := by
  unfold SlicknodeLink.accessTokenKey SlicknodeLink.refreshTokenKey
  exact ns_key_ne _ (by decide)

theorem AT_ne_RTE (link : SlicknodeLink) :
    link.accessTokenKey ≠ link.refreshTokenExpiresKey := by
  unfold SlicknodeLink.accessTokenKey SlicknodeLink.refreshTokenExpiresKey
  exact ns_key_ne _ (by decide)

theorem ATE_ne_RT (link : SlicknodeLink) :
    link.accessTokenExpiresKey ≠ link.refreshTokenKey := by
  unfold SlicknodeLink.accessTokenExpiresKey SlicknodeLink.refreshTokenKey
  exact ns_key_ne _ (by decide)

theorem ATE_ne_RTE (link : SlicknodeLink) :
    link.accessTokenExpiresKey ≠ link.refreshTokenExpiresKey := by
  unfold SlicknodeLink.accessTokenExpiresKey SlicknodeLink.refreshTokenExpiresKey
  exact ns_key_ne _ (by decide)

theorem RT_ne_RTE (link : SlicknodeLink) :
    link.refreshTokenKey ≠ link.refreshTokenExpiresKey := by
  unfold SlicknodeLink.refreshTokenKey SlicknodeLink.refreshTokenExpiresKey
  exact ns_key_ne _ (by decide)

/-- All four stored credential fields are absent. -/
def credentialsCleared (link : SlicknodeLink) : Prop :=
  link.storage.getItem link.accessTokenKey = none ∧
  link.storage.getItem link.accessTokenExpiresKey = none ∧
  link.storage.getItem link.refreshTokenKey = none ∧
  link.storage.getItem link.refreshTokenExpiresKey = none

theorem credentialsCleared_logout (link : SlicknodeLink) :
    credentialsCleared link.logout := by
  have d1 : link.nspace ++ ACCESS_TOKEN_KEY ≠ link.nspace ++ ACCESS_TOKEN_EXPIRES_KEY :=
    ns_key_ne _ (by decide)
  have d2 : link.nspace ++ REFRESH_TOKEN_KEY ≠ link.nspace ++ ACCESS_TOKEN_EXPIRES_KEY :=
    ns_key_ne _ (by decide)
  have d3 : link.nspace ++ REFRESH_TOKEN_KEY ≠ link.nspace ++ ACCESS_TOKEN_KEY :=
    ns_key_ne _ (by decide)
  have d4 : link.nspace ++ REFRESH_TOKEN_KEY ≠ link.nspace ++ REFRESH_TOKEN_EXPIRES_KEY :=
    ns_key_ne _ (by decide)
  have d5 : link.nspace ++ REFRESH_TOKEN_EXPIRES_KEY ≠ link.nspace ++ ACCESS_TOKEN_EXPIRES_KEY :=
    ns_key_ne _ (by decide)
  have d6 : link.nspace ++ REFRESH_TOKEN_EXPIRES_KEY ≠ link.nspace ++ ACCESS_TOKEN_KEY :=
    ns_key_ne _ (by decide)
  unfold credentialsCleared SlicknodeLink.logout
  dsimp only [SlicknodeLink.accessTokenKey, SlicknodeLink.accessTokenExpiresKey,
    SlicknodeLink.refreshTokenKey, SlicknodeLink.refreshTokenExpiresKey]
  refine ⟨?_, ?_, ?_, ?_⟩
  · rw [MemoryStorage.getItem_removeItem_ne _ d1,
      MemoryStorage.getItem_removeItem_self]
  · rw [MemoryStorage.getItem_removeItem_self]
  · rw [MemoryStorage.getItem_removeItem_ne _ d2,
      MemoryStorage.getItem_removeItem_ne _ d3,
      MemoryStorage.getItem_removeItem_ne _ d4,
      MemoryStorage.getItem_removeItem_self]
  · rw [MemoryStorage.getItem_removeItem_ne _ d5,
      MemoryStorage.getItem_removeItem_ne _ d6,
      MemoryStorage.getItem_removeItem_self]

theorem hasAccessToken_of_no_token {link : SlicknodeLink} (now : Int)
    (h : link.storage.getItem link.accessTokenKey = none) :
    link.hasAccessToken now = false := by
  unfold SlicknodeLink.hasAccessToken SlicknodeLink.getAccessToken
  split
  · rfl
  · rw [h]
    rfl

theorem getAuthHeaders_no_refresh_forward (link : SlicknodeLink) (now : Int)
    (freshId : Nat)
    (hpend : link.loadHeadersPromise = none)
    (hrt : link.storage.getItem link.refreshTokenKey = none) :
    (link.getAuthHeaders now freshId).forwardedRefresh = none := by
  have hgrt : link.getRefreshToken now = none := by
    unfold SlicknodeLink.getRefreshToken
    split
    · rfl
    · exact hrt
  unfold SlicknodeLink.getAuthHeaders
  rw [hpend]
  dsimp only
  cases htr : truthyStr (jsOrStr link.options.accessToken? (link.getAccessToken now)) with
  | some t => rfl
  | none =>
    rw [hgrt]
    rfl

theorem runCalls_pending {p : Nat} (now : Int) :
    ∀ (n freshId : Nat) (link : SlicknodeLink), link.loadHeadersPromise = some p →
      runCalls link now n freshId = ⟨link, List.replicate n (.pending p), 0⟩ := by
  intro n
  induction n with
  | zero =>
    intro freshId link h
    rfl
  | succ m ih =>
    intro freshId link h
    have hcall : link.getAuthHeaders now freshId = ⟨link, .pending p, none, false⟩ := by
      unfold SlicknodeLink.getAuthHeaders
      rw [h]
    unfold runCalls
    rw [hcall]
    dsimp only
    rw [ih (freshId + 1) link h]
    simp [List.replicate_succ]

def linkCexC2 : SlicknodeLink :=
  { options := ⟨none, none⟩,
    nspace := "slicknode",
    storage := ⟨[("slicknode:auth:accessToken", "a"),
                 ("slicknode:auth:accessTokenExpires", "1000")]⟩,
    loadHeadersPromise := none }

/-- C2 (counterexample): the claim says a token whose `expiresAt` equals
the current time is invalid (`getAccessToken` returns null).  With the
stored access token `"a"` and `expiresAt = 1000`, at `now = 1000` the code
`(getAccessTokenExpires() || 0) < Date.now()` compares `1000 < 1000`, which
is false, so the token is returned — the boundary is non-strict. -/
theorem expiry_boundary_counterexample :
    linkCexC2.getAccessToken 1000 = some "a" ∧
    ¬ (linkCexC2.getAccessToken 1000 = none) := by
  exact ⟨by decide, by decide⟩

/-- C2 (amended): a stored token is returned exactly when its effective
expiry (`expires || 0`) is greater than or equal to the current time; it is
`null` when the effective expiry is strictly below `now`; a missing expiry
acts as the value `0` and is therefore expired at every positive `now`.
In particular `expiresAt == now` is VALID (non-strict boundary) and
`expiresAt == now + 1` is valid, contrary to the claimed strict `>`. -/
theorem expiry_boundary_amended (link : SlicknodeLink) (now : Int) :
    (now ≤ jsOrZero link.getAccessTokenExpires →
      link.getAccessToken now = truthyStr (link.storage.getItem link.accessTokenKey)) ∧
    (jsOrZero link.getAccessTokenExpires < now →
      link.getAccessToken now = none) ∧
    (now ≤ jsOrZero link.getRefreshTokenExpires →
      link.getRefreshToken now = link.storage.getItem link.refreshTokenKey) ∧
    (jsOrZero link.getRefreshTokenExpires < now →
      link.getRefreshToken now = none) ∧
    (link.getAccessTokenExpires = none → 0 < now → link.getAccessToken now = none) ∧
    (link.getRefreshTokenExpires = none → 0 < now → link.getRefreshToken now = none) := by
  refine ⟨?_, ?_, ?_, ?_, ?_, ?_⟩
  · intro h
    unfold SlicknodeLink.getAccessToken
    rw [if_neg (by omega)]
  · intro h
    unfold SlicknodeLink.getAccessToken
    rw [if_pos h]
  · intro h
    unfold SlicknodeLink.getRefreshToken
    rw [if_neg (by omega)]
  · intro h
    unfold SlicknodeLink.getRefreshToken
    rw [if_pos h]
  · intro h hn
    unfold SlicknodeLink.getAccessToken
    rw [h]
    rw [if_pos (show jsOrZero none < now by simpa [jsOrZero] using hn)]
  · intro h hn
    unfold SlicknodeLink.getRefreshToken
    rw [h]
    rw [if_pos (show jsOrZero none < now by simpa [jsOrZero] using hn)]

/-- C2 (witness for the amended theorem): at the boundary `now = 1000` the
stored token is returned, and one tick past a stale expiry it is null. -/
theorem expiry_boundary_amended_witness :
    linkCexC2.getAccessToken 1000
      = truthyStr (linkCexC2.storage.getItem linkCexC2.accessTokenKey) ∧
    linkCexC2.getAccessToken 1001 = none := by
  have h1 := (expiry_boundary_amended linkCexC2 1000).1 (by decide)
  have h2 := (expiry_boundary_amended linkCexC2 1001).2.1 (by decide)
  exact ⟨h1, h2⟩

def linkCexC8 : SlicknodeLink :=
  { options := ⟨none, none⟩,
    nspace := "slicknode",
    storage := ⟨[("slicknode:auth:accessTokenExpires", "500")]⟩,
    loadHeadersPromise := none }

/-- C8 (counterexample): the claim says every non-null timestamp is stored
as a stringified number by `setAccessTokenExpires`.  The timestamp `0` is
non-null but falsy in JS, so `if (timestamp)` takes the `removeItem`
branch: the pre-existing entry is deleted, nothing (`"0"` in particular) is
stored. -/
theorem expiry_setter_counterexample :
    (linkCexC8.setAccessTokenExpires (some (.num 0))).storage.getItem
      "slicknode:auth:accessTokenExpires" = none ∧
    ¬ ((linkCexC8.setAccessTokenExpires (some (.num 0))).storage.getItem
      "slicknode:auth:accessTokenExpires" = some "0") := by
  exact ⟨by decide, by decide⟩

/-- C8 (amended): `setAccessTokenExpires` deletes the entry for every falsy
timestamp (`null`, `0`, `NaN`) and stores `String(timestamp)` for every
truthy (non-null, nonzero, non-NaN) one; `setRefreshTokenExpires` always
stores `String(timestamp)` — including the string `"null"` for `null` —
with no deletion path. -/
theorem expiry_setters_amended (link : SlicknodeLink) (ts : Option JsNumber) :
    ((link.setAccessTokenExpires none).storage.getItem link.accessTokenExpiresKey
      = none) ∧
    ((link.setAccessTokenExpires (some (.num 0))).storage.getItem
      link.accessTokenExpiresKey = none) ∧
    ((link.setAccessTokenExpires (some .nan)).storage.getItem
      link.accessTokenExpiresKey = none) ∧
    (∀ n : Int, n ≠ 0 →
      (link.setAccessTokenExpires (some (.num n))).storage.getItem
        link.accessTokenExpiresKey = some (jsIntRepr n)) ∧
    ((link.setRefreshTokenExpires ts).storage.getItem link.refreshTokenExpiresKey
      = some (jsRenderNullableNumber ts)) := by
  refine ⟨?_, ?_, ?_, ?_, ?_⟩
  · simp [SlicknodeLink.setAccessTokenExpires, jsTruthyNum,
      MemoryStorage.getItem_removeItem_self]
  · simp [SlicknodeLink.setAccessTokenExpires, jsTruthyNum, JsNumber.truthy,
      MemoryStorage.getItem_removeItem_self]
  · simp [SlicknodeLink.setAccessTokenExpires, jsTruthyNum, JsNumber.truthy,
      MemoryStorage.getItem_removeItem_self]
  · intro n hn
    have ht : jsTruthyNum (some (.num n)) = true := by
      simp [jsTruthyNum, JsNumber.truthy, hn]
    unfold SlicknodeLink.setAccessTokenExpires
    rw [if_pos ht]
    exact MemoryStorage.getItem_setItem_self _ _ _
  · unfold SlicknodeLink.setRefreshTokenExpires
    exact MemoryStorage.getItem_setItem_self _ _ _

/-- C8 (witness): a nonzero timestamp is stored as its decimal string, a
null one is removed on the access side but stored as `"null"` on the
refresh side. -/
theorem expiry_setters_amended_witness :
    ((linkCexC8.setAccessTokenExpires (some (.num 7))).storage.getItem
      linkCexC8.accessTokenExpiresKey = some (jsIntRepr 7)) ∧
    ((linkCexC8.setAccessTokenExpires none).storage.getItem
      linkCexC8.accessTokenExpiresKey = none) ∧
    ((linkCexC8.setRefreshTokenExpires none).storage.getItem
      linkCexC8.refreshTokenExpiresKey = some (jsRenderNullableNumber none)) := by
  have h := expiry_setters_amended linkCexC8 none
  exact ⟨h.2.2.2.1 7 (by decide), h.1, h.2.2.2.2⟩

/-- C9: with the stored access token equal to the empty string and a
strictly-future expiry, `getAccessToken` yields `null` (the `|| null`
coerces `""`) and `hasAccessToken` is false; in the symmetric refresh state
`getRefreshToken` returns the empty string itself (no coercion) while
`hasRefreshToken` is still false (`Boolean("")`). -/
theorem empty_token_asymmetry (link : SlicknodeLink) (now : Int)
    (hAtok : link.storage.getItem link.accessTokenKey = some "")
    (hAexp : now < jsOrZero link.getAccessTokenExpires)
    (hRtok : link.storage.getItem link.refreshTokenKey = some "")
    (hRexp : now < jsOrZero link.getRefreshTokenExpires) :
    link.getAccessToken now = none ∧
    link.hasAccessToken now = false ∧
    link.getRefreshToken now = some "" ∧
    link.hasRefreshToken now = false := by
  have h1 : link.getAccessToken now = none := by
    unfold SlicknodeLink.getAccessToken
    rw [if_neg (by omega), hAtok]
    rfl
  have h2 : link.getRefreshToken now = some "" := by
    unfold SlicknodeLink.getRefreshToken
    rw [if_neg (by omega), hRtok]
  refine ⟨h1, ?_, h2, ?_⟩
  · unfold SlicknodeLink.hasAccessToken
    rw [h1]
    rfl
  · unfold SlicknodeLink.hasRefreshToken
    rw [h2]
    rfl

def linkWitC9 : SlicknodeLink :=
  { options := ⟨none, none⟩,
    nspace := "slicknode",
    storage := ⟨[("slicknode:auth:accessToken", ""),
                 ("slicknode:auth:accessTokenExpires", "100"),
                 ("slicknode:auth:refreshToken", ""),
                 ("slicknode:auth:refreshTokenExpires", "100")]⟩,
    loadHeadersPromise := none }

/-- C9 (witness): the asymmetry at a concrete store with empty tokens whose
expiries lie in the future. -/
theorem empty_token_asymmetry_witness :
    linkWitC9.getAccessToken 50 = none ∧
    linkWitC9.hasAccessToken 50 = false ∧
    linkWitC9.getRefreshToken 50 = some "" ∧
    linkWitC9.hasRefreshToken 50 = false :=
  empty_token_asymmetry linkWitC9 50 (by decide) (by decide) (by decide) (by decide)

/-- C10: after `setRefreshTokenExpires(null)` the refresh-expiry entry
holds the literal string `"null"`; `getRefreshTokenExpires` parses it to
NaN (not `null`); the falsy NaN collapses to `0` in the expiry gate, so
`getRefreshToken` is `null` and `hasRefreshToken` false at every positive
time, whatever refresh token is stored — the token is invalidated without
any key being deleted. -/
theorem refresh_expiry_null_sentinel (link : SlicknodeLink) (now : Int)
    (hnow : 0 < now) :
    ((link.setRefreshTokenExpires none).storage.getItem link.refreshTokenExpiresKey
      = some "null") ∧
    ((link.setRefreshTokenExpires none).getRefreshTokenExpires = some .nan) ∧
    ((link.setRefreshTokenExpires none).getRefreshToken now = none) ∧
    ((link.setRefreshTokenExpires none).hasRefreshToken now = false) := by
  have h1 : (link.setRefreshTokenExpires none).storage.getItem
      link.refreshTokenExpiresKey = some "null" := by
    unfold SlicknodeLink.setRefreshTokenExpires
    exact MemoryStorage.getItem_setItem_self _ _ _
  have h2 : (link.setRefreshTokenExpires none).getRefreshTokenExpires = some .nan := by
    unfold SlicknodeLink.getRefreshTokenExpires
    rw [show (link.setRefreshTokenExpires none).refreshTokenExpiresKey
        = link.refreshTokenExpiresKey from rfl, h1]
    decide
  have h3 : (link.setRefreshTokenExpires none).getRefreshToken now = none := by
    unfold SlicknodeLink.getRefreshToken
    rw [h2]
    rw [if_pos (show jsOrZero (some .nan) < now by simpa [jsOrZero] using hnow)]
  refine ⟨h1, h2, h3, ?_⟩
  unfold SlicknodeLink.hasRefreshToken
  rw [h3]
  rfl

def linkWitC10 : SlicknodeLink :=
  { options := ⟨none, none⟩,
    nspace := "slicknode",
    storage := ⟨[("slicknode:auth:refreshToken", "r")]⟩,
    loadHeadersPromise := none }

/-- C10 (witness): the sentinel behaviour at a concrete store holding a
refresh token `"r"`. -/
theorem refresh_expiry_null_sentinel_witness :
    ((linkWitC10.setRefreshTokenExpires none).storage.getItem
      linkWitC10.refreshTokenExpiresKey = some "null") ∧
    ((linkWitC10.setRefreshTokenExpires none).getRefreshTokenExpires = some .nan) ∧
    ((linkWitC10.setRefreshTokenExpires none).getRefreshToken 1 = none) ∧
    ((linkWitC10.setRefreshTokenExpires none).hasRefreshToken 1 = false) :=
  refresh_expiry_null_sentinel linkWitC10 1 (by decide)

theorem truthyStr_some_of_ne {s : String} (h : s ≠ "") : truthyStr (some s) = some s := by
  simp [truthyStr, h]

theorem nspace_setAccessTokenExpires (link : SlicknodeLink) (ts : Option JsNumber) :
    (link.setAccessTokenExpires ts).nspace = link.nspace := by
  unfold SlicknodeLink.setAccessTokenExpires
  split <;> rfl

theorem nspace_setAuthTokenSet (link : SlicknodeLink) (t : IAuthTokenSet) (now : Int) :
    (link.setAuthTokenSet t now).nspace = link.nspace := by
  unfold SlicknodeLink.setAuthTokenSet SlicknodeLink.setRefreshTokenExpires
    SlicknodeLink.setRefreshToken
  dsimp only
  rw [nspace_setAccessTokenExpires]
  rfl

theorem keyAT_setAuthTokenSet (link : SlicknodeLink) (t : IAuthTokenSet) (now : Int) :
    (link.setAuthTokenSet t now).accessTokenKey = link.nspace ++ ACCESS_TOKEN_KEY := by
  unfold SlicknodeLink.accessTokenKey
  rw [nspace_setAuthTokenSet]

theorem keyATE_setAuthTokenSet (link : SlicknodeLink) (t : IAuthTokenSet) (now : Int) :
    (link.setAuthTokenSet t now).accessTokenExpiresKey
      = link.nspace ++ ACCESS_TOKEN_EXPIRES_KEY := by
  unfold SlicknodeLink.accessTokenExpiresKey
  rw [nspace_setAuthTokenSet]

theorem keyRTE_setAuthTokenSet (link : SlicknodeLink) (t : IAuthTokenSet) (now : Int) :
    (link.setAuthTokenSet t now).refreshTokenExpiresKey
      = link.nspace ++ REFRESH_TOKEN_EXPIRES_KEY := by
  unfold SlicknodeLink.refreshTokenExpiresKey
  rw [nspace_setAuthTokenSet]

/-- C7: `setAuthTokenSet({accessToken:"a", accessTokenLifetime:20,
refreshToken:"r", refreshTokenLifetime:100})` at time `now` makes an
immediate `getAccessToken()` return `"a"`, and `getAccessTokenExpires()`
equal `now + 20000`, which lies inside `[now+19999, now+20000]`; both
expiry timestamps are `now + lifetime * 1000` at the moment of the set
call (the refresh expiry is `now + 100000`). -/
theorem set_get_round_trip (link : SlicknodeLink) (now : Int) (hnow : 0 ≤ now) :
    ((link.setAuthTokenSet ⟨"a", .num 20, "r", .num 100⟩ now).getAccessToken now
      = some "a") ∧
    ((link.setAuthTokenSet ⟨"a", .num 20, "r", .num 100⟩ now).getAccessTokenExpires
      = some (.num (now + 20000))) ∧
    (now + 19999 ≤ now + 20000 ∧ now + 20000 ≤ now + 20000) ∧
    ((link.setAuthTokenSet ⟨"a", .num 20, "r", .num 100⟩ now).getRefreshTokenExpires
      = some (.num (now + 100000))) := by
  have e20 : (JsNumber.mul (.num 20) (.num 1000)).add (.num now) = .num (now + 20000) := by
    show JsNumber.num (20 * 1000 + now) = JsNumber.num (now + 20000)
    congr 1
    omega
  have e100 : (JsNumber.mul (.num 100) (.num 1000)).add (.num now)
      = .num (now + 100000) := by
    show JsNumber.num (100 * 1000 + now) = JsNumber.num (now + 100000)
    congr 1
    omega
  have ht20 : jsTruthyNum (some (.num (now + 20000))) = true := by
    simp only [jsTruthyNum, JsNumber.truthy, decide_eq_true_eq]
    omega
  have dATATE : link.nspace ++ ACCESS_TOKEN_KEY ≠ link.nspace ++ ACCESS_TOKEN_EXPIRES_KEY :=
    ns_key_ne _ (by decide)
  have dATRT : link.nspace ++ ACCESS_TOKEN_KEY ≠ link.nspace ++ REFRESH_TOKEN_KEY :=
    ns_key_ne _ (by decide)
  have dATRTE : link.nspace ++ ACCESS_TOKEN_KEY ≠ link.nspace ++ REFRESH_TOKEN_EXPIRES_KEY :=
    ns_key_ne _ (by decide)
  have dATERT : link.nspace ++ ACCESS_TOKEN_EXPIRES_KEY ≠ link.nspace ++ REFRESH_TOKEN_KEY :=
    ns_key_ne _ (by decide)
  have dATERTE : link.nspace ++ ACCESS_TOKEN_EXPIRES_KEY
      ≠ link.nspace ++ REFRESH_TOKEN_EXPIRES_KEY :=
    ns_key_ne _ (by decide)
  have hgAT : (link.setAuthTokenSet ⟨"a", .num 20, "r", .num 100⟩ now).storage.getItem
      (link.nspace ++ ACCESS_TOKEN_KEY) = some "a" := by
    unfold SlicknodeLink.setAuthTokenSet SlicknodeLink.setAccessToken
      SlicknodeLink.setAccessTokenExpires SlicknodeLink.setRefreshToken
      SlicknodeLink.setRefreshTokenExpires
    rw [e20, e100, if_pos ht20]
    dsimp only [SlicknodeLink.accessTokenKey, SlicknodeLink.accessTokenExpiresKey,
      SlicknodeLink.refreshTokenKey, SlicknodeLink.refreshTokenExpiresKey]
    rw [MemoryStorage.getItem_setItem_ne _ _ dATRTE,
      MemoryStorage.getItem_setItem_ne _ _ dATRT,
      MemoryStorage.getItem_setItem_ne _ _ dATATE,
      MemoryStorage.getItem_setItem_self]
  have hgATE : (link.setAuthTokenSet ⟨"a", .num 20, "r", .num 100⟩ now).storage.getItem
      (link.nspace ++ ACCESS_TOKEN_EXPIRES_KEY) = some (jsIntRepr (now + 20000)) := by
    unfold SlicknodeLink.setAuthTokenSet SlicknodeLink.setAccessToken
      SlicknodeLink.setAccessTokenExpires SlicknodeLink.setRefreshToken
      SlicknodeLink.setRefreshTokenExpires
    rw [e20, e100, if_pos ht20]
    dsimp only [SlicknodeLink.accessTokenKey, SlicknodeLink.accessTokenExpiresKey,
      SlicknodeLink.refreshTokenKey, SlicknodeLink.refreshTokenExpiresKey]
    rw [MemoryStorage.getItem_setItem_ne _ _ dATERTE,
      MemoryStorage.getItem_setItem_ne _ _ dATERT,
      MemoryStorage.getItem_setItem_self]
    rfl
  have hgRTE : (link.setAuthTokenSet ⟨"a", .num 20, "r", .num 100⟩ now).storage.getItem
      (link.nspace ++ REFRESH_TOKEN_EXPIRES_KEY) = some (jsIntRepr (now + 100000)) := by
    unfold SlicknodeLink.setAuthTokenSet SlicknodeLink.setAccessToken
      SlicknodeLink.setAccessTokenExpires SlicknodeLink.setRefreshToken
      SlicknodeLink.setRefreshTokenExpires
    rw [e20, e100, if_pos ht20]
    dsimp only [SlicknodeLink.accessTokenKey, SlicknodeLink.accessTokenExpiresKey,
      SlicknodeLink.refreshTokenKey, SlicknodeLink.refreshTokenExpiresKey]
    rw [MemoryStorage.getItem_setItem_self]
    rfl
  have hATE : (link.setAuthTokenSet ⟨"a", .num 20, "r", .num 100⟩ now).getAccessTokenExpires
      = some (.num (now + 20000)) := by
    unfold SlicknodeLink.getAccessTokenExpires
    rw [keyATE_setAuthTokenSet, hgATE, truthyStr_some_of_ne (jsIntRepr_ne_empty _)]
    show some (parseInt10 (jsIntRepr (now + 20000))) = some (JsNumber.num (now + 20000))
    rw [parseInt10_jsIntRepr_of_nonneg (by omega)]
  have hRTE : (link.setAuthTokenSet ⟨"a", .num 20, "r", .num 100⟩ now).getRefreshTokenExpires
      = some (.num (now + 100000)) := by
    unfold SlicknodeLink.getRefreshTokenExpires
    rw [keyRTE_setAuthTokenSet, hgRTE, truthyStr_some_of_ne (jsIntRepr_ne_empty _)]
    show some (parseInt10 (jsIntRepr (now + 100000))) = some (JsNumber.num (now + 100000))
    rw [parseInt10_jsIntRepr_of_nonneg (by omega)]
  have hAT : (link.setAuthTokenSet ⟨"a", .num 20, "r", .num 100⟩ now).getAccessToken now
      = some "a" := by
    unfold SlicknodeLink.getAccessToken
    rw [hATE]
    rw [if_neg (show ¬ jsOrZero (some (.num (now + 20000))) < now by
      simp only [jsOrZero]
      omega)]
    rw [keyAT_setAuthTokenSet, hgAT]
    decide
  exact ⟨hAT, hATE, ⟨by omega, by omega⟩, hRTE⟩

def linkWitC7 : SlicknodeLink :=
  { options := ⟨none, none⟩,
    nspace := "slicknode",
    storage := ⟨[]⟩,
    loadHeadersPromise := none }

/-- C7 (witness): the round trip at `now = 5` on an empty store. -/
theorem set_get_round_trip_witness :
    ((linkWitC7.setAuthTokenSet ⟨"a", .num 20, "r", .num 100⟩ 5).getAccessToken 5
      = some "a") ∧
    ((linkWitC7.setAuthTokenSet ⟨"a", .num 20, "r", .num 100⟩ 5).getAccessTokenExpires
      = some (.num (5 + 20000))) ∧
    ((linkWitC7.setAuthTokenSet ⟨"a", .num 20, "r", .num 100⟩ 5).getRefreshTokenExpires
      = some (.num (5 + 100000))) := by
  have h := set_get_round_trip linkWitC7 5 (by decide)
  exact ⟨h.1, h.2.1, h.2.2.2⟩

/-- C4: token-set validation is all-or-nothing.  If any of the four members
is missing or has the wrong type, `validateAndSetAuthTokenSet` reports
failure and leaves the link (hence all four stored credential fields)
exactly unchanged; the `@authenticate` result listener likewise leaves the
link unchanged whenever the delivered candidate is invalid (this path is
not a logout); only a fully valid set is persisted. -/
theorem token_set_validation_all_or_nothing (link : SlicknodeLink)
    (tokenSet : JsValue) (result : FetchResult) (fieldName : String) (now : Int) :
    (isValidAuthTokenSet tokenSet = false →
      link.validateAndSetAuthTokenSet tokenSet now = (false, link)) ∧
    (isValidAuthTokenSet (deliveredTokenSet result fieldName) = false →
      authenticateListener fieldName link result now = link) ∧
    (isValidAuthTokenSet tokenSet = true →
      link.validateAndSetAuthTokenSet tokenSet now
        = (true, link.setAuthTokenSet (jsValueToAuthTokenSet tokenSet) now)) := by
  refine ⟨?_, ?_, ?_⟩
  · intro h
    unfold SlicknodeLink.validateAndSetAuthTokenSet
    rw [h]
    rfl
  · intro h
    unfold authenticateListener
    cases hd : result.data with
    | none => rfl
    | some d =>
      have hdel : deliveredTokenSet result fieldName = jsGetField d fieldName := by
        unfold deliveredTokenSet
        rw [hd]
      rw [hdel] at h
      dsimp only
      split
      · unfold SlicknodeLink.validateAndSetAuthTokenSet
        rw [h]
        rfl
      · rfl
  · intro h
    unfold SlicknodeLink.validateAndSetAuthTokenSet
    rw [h]
    rfl

def linkWitC4 : SlicknodeLink :=
  { options := ⟨none, none⟩,
    nspace := "slicknode",
    storage := ⟨[("slicknode:auth:accessToken", "old"),
                 ("slicknode:auth:accessTokenExpires", "900"),
                 ("slicknode:auth:refreshToken", "oldr"),
                 ("slicknode:auth:refreshTokenExpires", "900")]⟩,
    loadHeadersPromise := none }

def badTokenSetC4 : JsValue :=
  .objV [("accessToken", .strV "x"), ("accessTokenLifetime", .strV "20"),
         ("refreshToken", .strV "y"), ("refreshTokenLifetime", .numV (.num 100))]

def resultC4 : FetchResult := ⟨some (.objV [("loginUser", badTokenSetC4)])⟩

/-- C4 (witness): the spec's example shape — `accessTokenLifetime` a string
instead of a number — is rejected and a pre-populated store is untouched,
both through the validator and through the listener. -/
theorem token_set_validation_all_or_nothing_witness :
    linkWitC4.validateAndSetAuthTokenSet badTokenSetC4 7 = (false, linkWitC4) ∧
    authenticateListener "loginUser" linkWitC4 resultC4 7 = linkWitC4 := by
  have h := token_set_validation_all_or_nothing linkWitC4 badTokenSetC4 resultC4
      "loginUser" 7
  exact ⟨h.1 (by decide), h.2.1 (by decide)⟩

/-- C5: static override precedence.  For a link constructed with the option
`accessToken: "abc123"`, every `getAuthHeaders` call — whatever the store
contents and however many calls are made — resolves immediately with
`{Authorization: "Bearer abc123"}`, never creates a pending handle, and
never issues a refresh forward call. -/
theorem static_override_precedence (options : ISlicknodeLinkOptions)
    (storage : MemoryStorage) (now : Int) (n freshId : Nat)
    (hopt : options.accessToken? = some "abc123") :
    runCalls (SlicknodeLink.construct options storage) now n freshId
      = ⟨SlicknodeLink.construct options storage,
         List.replicate n (.immediate (.authorization "Bearer abc123")), 0⟩ := by
  have hcall : ∀ i : Nat, (SlicknodeLink.construct options storage).getAuthHeaders now i
      = ⟨SlicknodeLink.construct options storage,
         .immediate (.authorization "Bearer abc123"), none, false⟩ := by
    intro i
    unfold SlicknodeLink.getAuthHeaders
    rw [show (SlicknodeLink.construct options storage).loadHeadersPromise = none from rfl]
    dsimp only
    rw [show (SlicknodeLink.construct options storage).options.accessToken?
        = some "abc123" from by rw [show (SlicknodeLink.construct options storage).options
          = options from rfl, hopt]]
    rfl
  induction n generalizing freshId with
  | zero => rfl
  | succ m ih =>
    unfold runCalls
    rw [hcall freshId]
    dsimp only
    rw [ih (freshId + 1)]
    simp [List.replicate_succ]

def storageWitC5 : MemoryStorage :=
  ⟨[("slicknode:auth:accessToken", "stored"),
    ("slicknode:auth:accessTokenExpires", "999999"),
    ("slicknode:auth:refreshToken", "r"),
    ("slicknode:auth:refreshTokenExpires", "999999")]⟩

/-- C5 (witness): two calls on a store full of valid credentials still
yield the static bearer token and zero forward calls. -/
theorem static_override_precedence_witness :
    runCalls (SlicknodeLink.construct ⟨none, some "abc123"⟩ storageWitC5) 100 2 0
      = ⟨SlicknodeLink.construct ⟨none, some "abc123"⟩ storageWitC5,
         List.replicate 2 (.immediate (.authorization "Bearer abc123")), 0⟩ :=
  static_override_precedence ⟨none, some "abc123"⟩ storageWitC5 100 2 0 rfl

theorem runResultListeners_state (value : FetchResult) (now : Int) :
    ∀ (listeners : List Listener) (link : SlicknodeLink) (i : Nat),
      (runResultListeners listeners link value now i).1
        = listeners.foldl (fun st l => l st value now) link := by
  intro listeners
  induction listeners with
  | nil =>
    intro link i
    rfl
  | cons l rest ih =>
    intro link i
    unfold runResultListeners
    dsimp only
    rw [ih (l link value now) (i + 1)]
    rfl

theorem runResultListeners_events (value : FetchResult) (now : Int) :
    ∀ (listeners : List Listener) (link : SlicknodeLink) (i : Nat),
      (runResultListeners listeners link value now i).2
        = (List.range listeners.length).map (fun j => RelayEvent.listenerInvoked (i + j)) := by
  intro listeners
  induction listeners with
  | nil =>
    intro link i
    rfl
  | cons l rest ih =>
    intro link i
    unfold runResultListeners
    dsimp only
    rw [ih (l link value now) (i + 1)]
    have h1 : RelayEvent.listenerInvoked i = RelayEvent.listenerInvoked (i + 0) := by
      norm_num
    have h2 : (fun j => RelayEvent.listenerInvoked (i + 1 + j))
        = (fun j => RelayEvent.listenerInvoked (i + j)) ∘ Nat.succ := by
      funext j
      show RelayEvent.listenerInvoked (i + 1 + j) = RelayEvent.listenerInvoked (i + (j + 1))
      congr 1
      omega
    rw [List.length_cons, List.range_succ_eq_map, List.map_cons, List.map_map, ← h1, ← h2]

/-- C6: listener-before-relay ordering.  On every `next` emission the trace
is the listener invocations, in registration order, strictly followed by
the relay of the value; the state at the moment of the relay is the left
fold of all listener updates (so `hasAccessToken()`/`getRefreshToken()`
reflect post-mutation state when the caller observes the response).
Completion and error signals pass through unchanged without invoking any
listener. -/
theorem listener_before_relay (listeners : List Listener) (link : SlicknodeLink)
    (value : FetchResult) (now : Int) :
    (onNext listeners link value now).2
      = (List.range listeners.length).map RelayEvent.listenerInvoked
          ++ [.nextRelayed] ∧
    (onNext listeners link value now).1
      = listeners.foldl (fun st l => l st value now) link ∧
    onComplete link = (link, [.completeRelayed]) ∧
    onError link = (link, [.errorRelayed]) := by
  refine ⟨?_, ?_, rfl, rfl⟩
  · unfold onNext
    dsimp only
    rw [runResultListeners_events]
    have h0 : (fun j => RelayEvent.listenerInvoked (0 + j)) = RelayEvent.listenerInvoked := by
      funext j
      congr 1
      omega
    rw [h0]
  · unfold onNext
    dsimp only
    rw [runResultListeners_state]

/-- C1: single-flight coalescing.  With no pending handle, no static
override, no valid access token and a valid (truthy) refresh token, `n ≥ 1`
`getAuthHeaders` calls in the same synchronous turn forward exactly one
refresh mutation; every call receives the same pending handle (so all of
them resolve with headers derived from that single call's settlement), and
the handle stays recorded in `loadHeadersPromise`.  Moreover, whenever
`loadHeadersPromise` is non-null, `getAuthHeaders` returns it unchanged and
issues no forward call. -/
theorem single_flight_coalescing (link : SlicknodeLink) (now : Int)
    (n freshId : Nat) (rt : String)
    (hpend : link.loadHeadersPromise = none)
    (hopts : truthyStr link.options.accessToken? = none)
    (hacc : link.getAccessToken now = none)
    (hrt : link.getRefreshToken now = some rt)
    (hrt' : rt ≠ "")
    (hn : 1 ≤ n) :
    (runCalls link now n freshId).forwardCount = 1 ∧
    (runCalls link now n freshId).results
      = List.replicate n (.pending freshId) ∧
    (runCalls link now n freshId).link'
      = { link with loadHeadersPromise := some freshId } ∧
    (∀ (l : SlicknodeLink) (p : Nat), l.loadHeadersPromise = some p →
      l.getAuthHeaders now freshId = ⟨l, .pending p, none, false⟩) := by
  have hjoin : ∀ (l : SlicknodeLink) (p : Nat), l.loadHeadersPromise = some p →
      l.getAuthHeaders now freshId = ⟨l, .pending p, none, false⟩ := by
    intro l p hp
    unfold SlicknodeLink.getAuthHeaders
    rw [hp]
  have hor : jsOrStr link.options.accessToken? (link.getAccessToken now) = none := by
    unfold jsOrStr
    rw [hopts, hacc]
  have hfirst : link.getAuthHeaders now freshId
      = ⟨{ link with loadHeadersPromise := some freshId },
         .pending freshId, some rt, false⟩ := by
    unfold SlicknodeLink.getAuthHeaders
    rw [hpend]
    dsimp only
    rw [hor]
    dsimp only [truthyStr]
    rw [hrt]
    dsimp only
    rw [if_neg hrt']
  cases n with
  | zero => omega
  | succ m =>
    have hrun : runCalls link now (m + 1) freshId
        = ⟨{ link with loadHeadersPromise := some freshId },
           .pending freshId :: List.replicate m (.pending freshId), 1⟩ := by
      unfold runCalls
      rw [hfirst]
      dsimp only
      rw [runCalls_pending now m (freshId + 1) _ rfl]
      simp
    refine ⟨?_, ?_, ?_, hjoin⟩
    · rw [hrun]
    · rw [hrun]
      simp [List.replicate_succ]
    · rw [hrun]

def linkWitC1 : SlicknodeLink :=
  { options := ⟨none, none⟩,
    nspace := "slicknode",
    storage := ⟨[("slicknode:auth:refreshToken", "r"),
                 ("slicknode:auth:refreshTokenExpires", "200")]⟩,
    loadHeadersPromise := none }

/-- C1 (witness): three same-turn calls on a store holding only a valid
refresh token issue exactly one forward call and all share handle `0`. -/
theorem single_flight_coalescing_witness :
    (runCalls linkWitC1 100 3 0).forwardCount = 1 ∧
    (runCalls linkWitC1 100 3 0).results = List.replicate 3 (.pending 0) := by
  have h := single_flight_coalescing linkWitC1 100 3 0 "r" rfl (by decide) (by decide)
      (by decide) (by decide) (by decide)
  exact ⟨h.1, h.2.1⟩

/-- C3: refresh failure degrades silently to logout.  Both the `error`
handler and a `next` handler seeing no usable `refreshAuthToken` payload
settle the header promise by RESOLUTION (never rejection) with `{}`; they
clear all four stored credential fields and null the pending handle; and a
subsequent `getAuthHeaders` call in a later turn forwards no further
refresh mutation (no refresh token is left). -/
theorem refresh_failure_silent_logout (link : SlicknodeLink) (result : FetchResult)
    (now now' : Int) (freshId : Nat)
    (hbad : ∀ p, refreshAuthTokenPayload result = some p →
      isValidAuthTokenSet p = false) :
    link.refreshErrorHandler.2 = .resolved .empty ∧
    link.refreshErrorHandler.1.loadHeadersPromise = none ∧
    credentialsCleared link.refreshErrorHandler.1 ∧
    (link.refreshErrorHandler.1.getAuthHeaders now' freshId).forwardedRefresh = none ∧
    (link.refreshNextHandler result now).2 = .resolved .empty ∧
    (link.refreshNextHandler result now).1.loadHeadersPromise = none ∧
    credentialsCleared (link.refreshNextHandler result now).1 ∧
    ((link.refreshNextHandler result now).1.getAuthHeaders now' freshId).forwardedRefresh
      = none := by
  have hclerr : credentialsCleared ({ link.logout with loadHeadersPromise := none }) := by
    have h := credentialsCleared_logout link
    unfold credentialsCleared at h ⊢
    exact h
  have hcl := credentialsCleared_logout ({ link with loadHeadersPromise := none })
  have hH := hasAccessToken_of_no_token now hcl.1
  have hpair : link.refreshNextHandler result now
      = (SlicknodeLink.logout { link with loadHeadersPromise := none },
         .resolved .empty) := by
    unfold SlicknodeLink.refreshNextHandler
    dsimp only
    cases hp : refreshAuthTokenPayload result with
    | none =>
      dsimp only
      rw [hH]
      rfl
    | some p =>
      have hv := hbad p hp
      have hval : ({ link with loadHeadersPromise := none }
          : SlicknodeLink).validateAndSetAuthTokenSet p now
          = (false, { link with loadHeadersPromise := none }) := by
        unfold SlicknodeLink.validateAndSetAuthTokenSet
        rw [hv]
        rfl
      dsimp only
      rw [hval]
      simp only [Bool.false_eq_true, if_false]
      rw [hH]
      rfl
  refine ⟨rfl, rfl, ?_, ?_, ?_, ?_, ?_, ?_⟩
  · exact hclerr
  · exact getAuthHeaders_no_refresh_forward _ now' freshId rfl hclerr.2.2.1
  · rw [hpair]
  · rw [hpair]
    rfl
  · rw [hpair]
    exact hcl
  · rw [hpair]
    exact getAuthHeaders_no_refresh_forward _ now' freshId rfl hcl.2.2.1

def linkWitC3 : SlicknodeLink :=
  { options := ⟨none, none⟩,
    nspace := "slicknode",
    storage := ⟨[("slicknode:auth:accessToken", "old"),
                 ("slicknode:auth:accessTokenExpires", "10"),
                 ("slicknode:auth:refreshToken", "r"),
                 ("slicknode:auth:refreshTokenExpires", "500")]⟩,
    loadHeadersPromise := some 0 }

/-- C3 (witness): a refresh response with no data at all resolves `{}`,
clears the store, and the next-turn call forwards nothing. -/
theorem refresh_failure_silent_logout_witness :
    (linkWitC3.refreshNextHandler ⟨none⟩ 100).2 = .resolved .empty ∧
    credentialsCleared (linkWitC3.refreshNextHandler ⟨none⟩ 100).1 ∧
    ((linkWitC3.refreshNextHandler ⟨none⟩ 100).1.getAuthHeaders 200 1).forwardedRefresh
      = none := by
  have h := refresh_failure_silent_logout linkWitC3 ⟨none⟩ 100 200 1
      (fun p hp => nomatch hp)
  exact ⟨h.2.2.2.2.1, h.2.2.2.2.2.2.1, h.2.2.2.2.2.2.2⟩
